import Mathlib

/-!
# daheige/cache: the wrapper around the bigcache engine

A shallow embedding of `cache.go` and `cache_impl.go`.  The package is a thin
wrapper: `cacheImpl` embeds `*bigcache.BigCache` and adds `Stats`,
`KeyMetadata`, `SetJson`, `GetJson`, `GetWithInfo`, the constructor `New` and
the `CacheOption` builders.

The engine (`github.com/allegro/bigcache/v3`) and the standard library
(`encoding/json`, `fmt`) are imported packages.  What the wrapper needs from
them is kept apart in the namespace `bigcache` (the declarations the wrapper
compiles against) and passed in as parameters where the wrapper only calls
them (`BigCache` methods, `json.Marshal`, `json.Unmarshal`, `NewBigCache`).

Conventions: a Go `[]byte` is a list of byte values, a Go `error` is
`Option GoError` (`none` is `nil`), a method that can change the engine takes
the engine state and returns the new one, Go `int`, `int64` and
`time.Duration` values are integers (the wrapper only stores and copies them).
-/

set_option autoImplicit false

/-- Go `[]byte`: the byte values, each below 256. -/
abbrev Bytes := List Nat

/-- Go `error` values met by the wrapper.  `nil` is `Option.none`. -/
inductive GoError where
  /-- The sentinel `bigcache.ErrEntryNotFound`, re-exported at cache_impl.go:87. -/
  | ErrEntryNotFound
  /-- Any other error value returned by the engine. -/
  | engine (msg : String)
  /-- An error value returned by `encoding/json`. -/
  | json (msg : String)
  /-- The error value built by `fmt.Errorf` from its formatted message. -/
  | errorf (msg : String)
  deriving DecidableEq, Repr

/-- Go `err.Error()`: the message of an error value. -/
def GoError.Error : GoError → String
  | .ErrEntryNotFound => "Entry not found"
  | .engine msg => msg
  | .json msg => msg
  | .errorf msg => msg

namespace bigcache

/-- Engine `type RemoveReason uint32`. -/
structure RemoveReason where
  val : Nat
  deriving DecidableEq, Repr

/-- Engine constant `Expired = RemoveReason(1)`. -/
def Expired : RemoveReason := ⟨1⟩

/-- Engine constant `NoSpace = RemoveReason(2)`. -/
def NoSpace : RemoveReason := ⟨2⟩

/-- Engine constant `Deleted = RemoveReason(3)`. -/
def Deleted : RemoveReason := ⟨3⟩

/-- Engine `type Response struct { EntryStatus RemoveReason }`. -/
structure Response where
  EntryStatus : RemoveReason
  deriving DecidableEq, Repr

/-- Engine `type Metadata struct { RequestCount uint32 }`. -/
structure Metadata where
  RequestCount : Nat
  deriving DecidableEq, Repr

/-- Engine `type Stats struct`, five `int64` counters. -/
structure Stats where
  Hits : Int
  Misses : Int
  DelHits : Int
  DelMisses : Int
  Collisions : Int
  deriving DecidableEq, Repr

/-- The methods of `*bigcache.BigCache` the wrapper calls or promotes, over an
engine state `σ`.  Their bodies belong to the engine and stay abstract. -/
structure BigCache (σ : Type) where
  Set : String → Bytes → σ → Option GoError × σ
  Get : String → σ → (Bytes × Option GoError) × σ
  GetWithInfo : String → σ → (Bytes × Response × Option GoError) × σ
  Delete : String → σ → Option GoError × σ
  Stats : σ → Stats
  KeyMetadata : String → σ → Metadata

/-- Engine `type Config struct` (the fields in declaration order).  `η` is the
type of `Hasher` values, `ℓ` of `Logger` values, and a callback acts on a
world `κ` owned by the caller.  A `nil` callback is `none`.  The unexported
`onRemoveFilter int` is kept as the bit pattern of the 64-bit integer. -/
structure Config (η ℓ κ : Type) where
  Shards : Int
  LifeWindow : Int
  CleanWindow : Int
  MaxEntriesInWindow : Int
  MaxEntrySize : Int
  StatsEnabled : Bool
  Verbose : Bool
  Hasher : η
  HardMaxCacheSize : Int
  OnRemove : Option (String → Bytes → κ → κ)
  OnRemoveWithMetadata : Option (String → Bytes → Metadata → κ → κ)
  OnRemoveWithReason : Option (String → Bytes → RemoveReason → κ → κ)
  onRemoveFilter : Nat
  Logger : ℓ

variable {η ℓ κ : Type}

/-- Engine `DefaultConfig(eviction)`: 1024 shards, the given life window, a
clean window of one second (in nanoseconds), 600000 entries in window, entries
of 500 bytes, statistics off, verbose on, the default hasher and logger, no
size limit, no callback, no filter. -/
def DefaultConfig [Inhabited η] [Inhabited ℓ] (eviction : Int) : Config η ℓ κ :=
  { Shards := 1024
    LifeWindow := eviction
    CleanWindow := 1 * 1000000000
    MaxEntriesInWindow := 1000 * 10 * 60
    MaxEntrySize := 500
    StatsEnabled := false
    Verbose := true
    Hasher := default
    HardMaxCacheSize := 0
    OnRemove := none
    OnRemoveWithMetadata := none
    OnRemoveWithReason := none
    onRemoveFilter := 0
    Logger := default }

/-- Go `1 << uint(reason)` on a 64-bit `int`, as a bit pattern: a shift by 64
or more gives 0. -/
def reasonBit (reason : RemoveReason) : Nat :=
  if reason.val < 64 then 2 ^ reason.val else 0

/-- Engine method `func (c Config) OnRemoveFilterSet(reasons ...RemoveReason) Config`.
The receiver is a value: the method changes its own copy of the config and
returns that copy. -/
def Config.OnRemoveFilterSet (c : Config η ℓ κ) (reasons : List RemoveReason) :
    Config η ℓ κ :=
  { c with onRemoveFilter := reasons.foldl (fun acc r => acc ||| reasonBit r) 0 }

/-- Engine test in `providedOnRemoveWithReason`:
`onRemoveFilter == 0 || (1<<uint(reason))&onRemoveFilter > 0`, the comparison
being one of signed 64-bit integers. -/
def Config.passesFilter (c : Config η ℓ κ) (reason : RemoveReason) : Bool :=
  c.onRemoveFilter == 0 ||
    (0 < (reasonBit reason &&& c.onRemoveFilter) &&
      (reasonBit reason &&& c.onRemoveFilter) < 2 ^ 63)

/-- Engine notification of one removal, the callback chosen as the config
documents it (cache_impl.go:178-216): `OnRemoveWithMetadata` when set;
otherwise `OnRemove` (it is "ignored if OnRemoveWithMetadata is specified");
otherwise `OnRemoveWithReason` (it is "ignored if OnRemove is specified"),
for the reasons that pass the filter; otherwise nothing. -/
def Config.onRemove (c : Config η ℓ κ) (key : String) (entry : Bytes)
    (reason : RemoveReason) (keyMetadata : Metadata) : κ → κ :=
  match c.OnRemoveWithMetadata with
  | some fn => fn key entry keyMetadata
  | none =>
    match c.OnRemove with
    | some fn => fn key entry
    | none =>
      match c.OnRemoveWithReason with
      | some fn => if c.passesFilter reason then fn key entry reason else id
      | none => id

end bigcache

namespace cache

/-- Wrapper `type RemoveReason uint32` (cache.go:24). -/
structure RemoveReason where
  val : Nat
  deriving DecidableEq, Repr

/-- Wrapper constant `Expired RemoveReason = iota + 1` (cache.go:28). -/
def Expired : RemoveReason := ⟨0 + 1⟩

/-- Wrapper constant `NoSpace`, the second of the `iota + 1` block (cache.go:31). -/
def NoSpace : RemoveReason := ⟨1 + 1⟩

/-- Wrapper constant `Deleted`, the third of the `iota + 1` block (cache.go:33). -/
def Deleted : RemoveReason := ⟨2 + 1⟩

/-- Go conversion `RemoveReason(x)` of an engine reason (cache_impl.go:96):
both types are `uint32`, the value is kept. -/
def RemoveReason.ofEngine (r : bigcache.RemoveReason) : RemoveReason := ⟨r.val⟩

/-- Go conversion `bigcache.RemoveReason(x)` of a wrapper reason
(cache_impl.go:232): both types are `uint32`, the value is kept. -/
def RemoveReason.toEngine (r : RemoveReason) : bigcache.RemoveReason := ⟨r.val⟩

/-- Wrapper `type Response struct { EntryStatus RemoveReason }` (cache.go:37). -/
structure Response where
  EntryStatus : RemoveReason
  deriving DecidableEq, Repr

/-- Wrapper `type Metadata struct { RequestCount uint32 }` (cache.go:42). -/
structure Metadata where
  RequestCount : Nat
  deriving DecidableEq, Repr

/-- Wrapper `type Stats struct` (cache.go:47). -/
structure Stats where
  Hits : Int
  Misses : Int
  DelHits : Int
  DelMisses : Int
  Collisions : Int
  deriving DecidableEq, Repr

/-- Wrapper `type cacheImpl struct { *bigcache.BigCache }` (cache_impl.go:31). -/
structure cacheImpl (σ : Type) where
  BigCache : bigcache.BigCache σ

variable {σ : Type}

/-- Promoted method `Set` of the embedded engine. -/
def cacheImpl.Set (c : cacheImpl σ) (key : String) (entry : Bytes) (s : σ) :
    Option GoError × σ :=
  c.BigCache.Set key entry s

/-- Promoted method `Get` of the embedded engine. -/
def cacheImpl.Get (c : cacheImpl σ) (key : String) (s : σ) :
    (Bytes × Option GoError) × σ :=
  c.BigCache.Get key s

/-- Method `Stats` (cache_impl.go:36): copies the engine snapshot field by field. -/
def cacheImpl.Stats (c : cacheImpl σ) (s : σ) : Stats :=
  let status := c.BigCache.Stats s
  { Hits := status.Hits
    Misses := status.Misses
    DelHits := status.DelHits
    DelMisses := status.DelMisses
    Collisions := status.Collisions }

/-- Method `KeyMetadata` (cache_impl.go:50). -/
def cacheImpl.KeyMetadata (c : cacheImpl σ) (key : String) (s : σ) : Metadata :=
  let cacheMeta := c.BigCache.KeyMetadata key s
  { RequestCount := cacheMeta.RequestCount }

/-- Method `GetWithInfo` (cache_impl.go:93): the engine call, with the status
converted to the wrapper type. -/
def cacheImpl.GetWithInfo (c : cacheImpl σ) (key : String) (s : σ) :
    (Bytes × Response × Option GoError) × σ :=
  match c.BigCache.GetWithInfo key s with
  | ((b, res, err), s1) =>
    let response : Response := { EntryStatus := RemoveReason.ofEngine res.EntryStatus }
    ((b, response, err), s1)

/-- A Go `interface{}` argument of `SetJson`, split as the type assertion
`value.([]byte)` splits it: a value of dynamic type `[]byte`, or a value of
any other dynamic type (`α`). -/
inductive GoValue (α : Type) where
  | bytes (v : Bytes)
  | other (a : α)
  deriving DecidableEq, Repr

end cache

namespace json

/-- The `n`-th character of the standard base64 alphabet, as its ASCII code. -/
def base64Char (n : Nat) : Nat :=
  if n < 26 then 65 + n
  else if n < 52 then 97 + (n - 26)
  else if n < 62 then 48 + (n - 52)
  else if n = 62 then 43
  else 47

/-- Standard base64 with padding (`base64.StdEncoding`). -/
def base64 : Bytes → Bytes
  | [] => []
  | [a] => [base64Char (a / 4), base64Char (a % 4 * 16), 61, 61]
  | [a, b] =>
    [base64Char (a / 4), base64Char (a % 4 * 16 + b / 16), base64Char (b % 16 * 4), 61]
  | a :: b :: c :: rest =>
    [base64Char (a / 4), base64Char (a % 4 * 16 + b / 16),
      base64Char (b % 16 * 4 + c / 64), base64Char (c % 64)] ++ base64 rest

/-- Go `json.Marshal(value)`.  A non-nil `[]byte` encodes as a JSON string
holding its base64 text; how a value of another type encodes is the parameter
`encode`. -/
def Marshal {α : Type} (encode : α → Except GoError Bytes) :
    cache.GoValue α → Except GoError Bytes
  | .bytes v => .ok (34 :: base64 v ++ [34])
  | .other a => encode a

end json

namespace cache

variable {σ α β : Type}

/-- Method `SetJson` (cache_impl.go:60).  `encode` is how `json.Marshal`
encodes the values that are not byte slices. -/
def cacheImpl.SetJson (c : cacheImpl σ) (encode : α → Except GoError Bytes)
    (key : String) (value : GoValue α) (s : σ) : Option GoError × σ :=
  match value with
  | .bytes v => c.Set key v s
  | .other _ =>
    match json.Marshal encode value with
    | .error err =>
      (some (GoError.errorf ("set key:" ++ key ++ " cache error:" ++ err.Error)), s)
    | .ok b => c.Set key b s

/-- Method `GetJson` (cache_impl.go:76).  `unmarshal b bean` is
`json.Unmarshal(b, bean)`: what the destination holds afterwards and the
error.  The result is the returned error, what `bean` holds, and the engine
state. -/
def cacheImpl.GetJson (c : cacheImpl σ) (unmarshal : Bytes → β → β × Option GoError)
    (key : String) (bean : β) (s : σ) : (Option GoError × β) × σ :=
  match c.Get key s with
  | ((b, err), s1) =>
    match err with
    | some e => ((some e, bean), s1)
    | none => (((unmarshal b bean).2, (unmarshal b bean).1), s1)

variable {η ℓ κ : Type}

/-- Type `CacheOption func(c *bigcache.Config)` (cache_impl.go:103): the
config is changed in place. -/
abbrev CacheOption (η ℓ κ : Type) := bigcache.Config η ℓ κ → bigcache.Config η ℓ κ

/-- Option `WithShards` (cache_impl.go:106). -/
def WithShards (num : Int) : CacheOption η ℓ κ :=
  fun c => { c with Shards := num }

/-- Option `WithLifeWindow` (cache_impl.go:114). -/
def WithLifeWindow (t : Int) : CacheOption η ℓ κ :=
  fun c => { c with LifeWindow := t }

/-- Option `WithCleanWindow` (cache_impl.go:124). -/
def WithCleanWindow (t : Int) : CacheOption η ℓ κ :=
  fun c => { c with CleanWindow := t }

/-- Option `WithMaxEntriesInWindow` (cache_impl.go:133). -/
def WithMaxEntriesInWindow (n : Int) : CacheOption η ℓ κ :=
  fun c => { c with MaxEntriesInWindow := n }

/-- Option `WithMaxEntrySize` (cache_impl.go:140). -/
def WithMaxEntrySize (size : Int) : CacheOption η ℓ κ :=
  fun c => { c with MaxEntrySize := size }

/-- Option `WithStatsEnabled` (cache_impl.go:147): takes no argument. -/
def WithStatsEnabled : CacheOption η ℓ κ :=
  fun c => { c with StatsEnabled := true }

/-- Option `WithVerbose` (cache_impl.go:154). -/
def WithVerbose (v : Bool) : CacheOption η ℓ κ :=
  fun c => { c with Verbose := v }

/-- Option `WithHasher` (cache_impl.go:161). -/
def WithHasher (h : η) : CacheOption η ℓ κ :=
  fun c => { c with Hasher := h }

/-- Option `WithHardMaxCacheSize` (cache_impl.go:172). -/
def WithHardMaxCacheSize (hardMaxCacheSize : Int) : CacheOption η ℓ κ :=
  fun c => { c with HardMaxCacheSize := hardMaxCacheSize }

/-- Option `WithOnRemove` (cache_impl.go:183). -/
def WithOnRemove (fn : Option (String → Bytes → κ → κ)) : CacheOption η ℓ κ :=
  fun c => { c with OnRemove := fn }

/-- Option `WithOnRemoveWithMetadata` (cache_impl.go:197). -/
def WithOnRemoveWithMetadata (fn : Option (String → Bytes → bigcache.Metadata → κ → κ)) :
    CacheOption η ℓ κ :=
  fun c => { c with OnRemoveWithMetadata := fn }

/-- Option `WithOnRemoveWithReason` (cache_impl.go:212). -/
def WithOnRemoveWithReason
    (fn : Option (String → Bytes → bigcache.RemoveReason → κ → κ)) : CacheOption η ℓ κ :=
  fun c => { c with OnRemoveWithReason := fn }

/-- Option `WithLogger` (cache_impl.go:220). -/
def WithLogger (logger : ℓ) : CacheOption η ℓ κ :=
  fun c => { c with Logger := logger }

/-- Option `WithOnRemoveFilterSet` (cache_impl.go:228).  The loop converts
the reasons one by one; `c.OnRemoveFilterSet(reasonsList...)` is then called
through the pointer `c` as a statement.  The engine method has a value
receiver and hands back the changed copy, which the statement drops, so the
config behind `c` is what it was. -/
def WithOnRemoveFilterSet (reasons : List RemoveReason) : CacheOption η ℓ κ :=
  fun c =>
    let reasonsList := reasons.foldl (fun acc r => acc ++ [r.toEngine]) []
    let _dropped := c.OnRemoveFilterSet reasonsList
    c

/-- The config `New` builds before it calls the engine (cache_impl.go:16-19):
the options applied in order to `DefaultConfig(lifeWindow)`. -/
def newConfig [Inhabited η] [Inhabited ℓ] (lifeWindow : Int)
    (opts : List (CacheOption η ℓ κ)) : bigcache.Config η ℓ κ :=
  opts.foldl (fun config o => o config) (bigcache.DefaultConfig lifeWindow)

/-- Constructor `New` (cache_impl.go:15).  `NewBigCache` is the engine
constructor: an error, or the engine with its first state. -/
def New [Inhabited η] [Inhabited ℓ]
    (NewBigCache : bigcache.Config η ℓ κ → Except GoError (bigcache.BigCache σ × σ))
    (lifeWindow : Int) (opts : List (CacheOption η ℓ κ)) :
    Except GoError (cacheImpl σ × σ) :=
  let config := newConfig lifeWindow opts
  match NewBigCache config with
  | .error err => .error err
  | .ok (cacheEntry, s) => .ok ({ BigCache := cacheEntry }, s)

end cache

/-! ## The option builders by name

`New` takes any functions as options.  To speak of the lists made of this
package's builders, the scalar builders and the callback builders are listed
with their arguments, next to the field each one writes. -/

namespace cache

variable {η ℓ κ : Type}

/-- The config fields written by the scalar builders. -/
inductive ScalarField where
  | Shards
  | LifeWindow
  | CleanWindow
  | MaxEntriesInWindow
  | MaxEntrySize
  | StatsEnabled
  | Verbose
  | HardMaxCacheSize
  deriving DecidableEq, Repr

/-- A call of one of the scalar builders, with its argument. -/
inductive ScalarOption where
  | WithShards (num : Int)
  | WithLifeWindow (t : Int)
  | WithCleanWindow (t : Int)
  | WithMaxEntriesInWindow (n : Int)
  | WithMaxEntrySize (size : Int)
  | WithStatsEnabled
  | WithVerbose (v : Bool)
  | WithHardMaxCacheSize (hardMaxCacheSize : Int)
  deriving DecidableEq, Repr

/-- The field a scalar builder assigns. -/
def ScalarOption.field : ScalarOption → ScalarField
  | .WithShards _ => .Shards
  | .WithLifeWindow _ => .LifeWindow
  | .WithCleanWindow _ => .CleanWindow
  | .WithMaxEntriesInWindow _ => .MaxEntriesInWindow
  | .WithMaxEntrySize _ => .MaxEntrySize
  | .WithStatsEnabled => .StatsEnabled
  | .WithVerbose _ => .Verbose
  | .WithHardMaxCacheSize _ => .HardMaxCacheSize

/-- The `CacheOption` a scalar builder call returns. -/
def ScalarOption.option : ScalarOption → CacheOption η ℓ κ
  | .WithShards num => cache.WithShards num
  | .WithLifeWindow t => cache.WithLifeWindow t
  | .WithCleanWindow t => cache.WithCleanWindow t
  | .WithMaxEntriesInWindow n => cache.WithMaxEntriesInWindow n
  | .WithMaxEntrySize size => cache.WithMaxEntrySize size
  | .WithStatsEnabled => cache.WithStatsEnabled
  | .WithVerbose v => cache.WithVerbose v
  | .WithHardMaxCacheSize n => cache.WithHardMaxCacheSize n

/-- A call of one of the three removal-callback builders, with its argument
(`none` for a nil function). -/
inductive RemoveOption (κ : Type) where
  | WithOnRemove (fn : Option (String → Bytes → κ → κ))
  | WithOnRemoveWithMetadata (fn : Option (String → Bytes → bigcache.Metadata → κ → κ))
  | WithOnRemoveWithReason (fn : Option (String → Bytes → bigcache.RemoveReason → κ → κ))

/-- The `CacheOption` a callback builder call returns. -/
def RemoveOption.option : RemoveOption κ → CacheOption η ℓ κ
  | .WithOnRemove fn => cache.WithOnRemove fn
  | .WithOnRemoveWithMetadata fn => cache.WithOnRemoveWithMetadata fn
  | .WithOnRemoveWithReason fn => cache.WithOnRemoveWithReason fn

end cache

/-! ## Concrete inputs

An engine, values and a decoder small enough to evaluate, at which the general
statements below are instantiated. -/

namespace cache

/-- A one-table engine: `Set` puts the pair in front, `Get` returns the first
entry stored under the key or `ErrEntryNotFound`, `Delete` drops the key. -/
def tableEngine : bigcache.BigCache (List (String × Bytes)) where
  Set key entry s := (none, (key, entry) :: s)
  Get key s :=
    match s.lookup key with
    | some v => ((v, none), s)
    | none => (([], some GoError.ErrEntryNotFound), s)
  GetWithInfo key s :=
    match s.lookup key with
    | some v => ((v, ⟨⟨0⟩⟩, none), s)
    | none => (([], ⟨⟨0⟩⟩, some GoError.ErrEntryNotFound), s)
  Delete key s :=
    match s.lookup key with
    | some _ => (none, s.filter (fun p => p.1 != key))
    | none => (some GoError.ErrEntryNotFound, s)
  Stats _ := ⟨0, 0, 0, 0, 0⟩
  KeyMetadata _ _ := ⟨0⟩

/-- The wrapper over `tableEngine`. -/
def tableCache : cacheImpl (List (String × Bytes)) := { BigCache := tableEngine }

/-- Two kinds of Go values that are not byte slices: a `bool`, and a
`chan int`, which `encoding/json` cannot encode. -/
inductive SampleValue where
  | bool (b : Bool)
  | chanInt
  deriving DecidableEq, Repr

/-- What `json.Marshal` does on a `SampleValue`: the text `true` or `false`
for a `bool`, an `UnsupportedTypeError` for a channel. -/
def SampleValue.encode : SampleValue → Except GoError Bytes
  | .bool true => .ok [116, 114, 117, 101]
  | .bool false => .ok [102, 97, 108, 115, 101]
  | .chanInt => .error (GoError.json "json: unsupported type: chan int")

/-- A decoder into a `bool` destination that accepts the texts `true` and
`false` and rejects every other input, leaving the destination as it was. -/
def decodeBool (b : Bytes) (bean : Bool) : Bool × Option GoError :=
  if b = [116, 114, 117, 101] then (true, none)
  else if b = [102, 97, 108, 115, 101] then (false, none)
  else (bean, some (GoError.json "json: cannot decode into a bool"))

/-- Sample bare callback: it appends one line to a log. -/
def logBare (key : String) (_entry : Bytes) (w : List String) : List String :=
  w ++ ["OnRemove " ++ key]

/-- Sample metadata-aware callback. -/
def logMetadata (key : String) (_entry : Bytes) (_m : bigcache.Metadata)
    (w : List String) : List String :=
  w ++ ["OnRemoveWithMetadata " ++ key]

/-- Sample reason-aware callback. -/
def logReason (key : String) (_entry : Bytes) (_r : bigcache.RemoveReason)
    (w : List String) : List String :=
  w ++ ["OnRemoveWithReason " ++ key]

/-- The config `New(10 * time.Second)` starts from, with no hasher or logger
detail and callbacks that write to a log. -/
def tenSeconds : bigcache.Config Unit Unit (List String) :=
  bigcache.DefaultConfig 10000000000

end cache

/-! ## Theorems -/

namespace cache

variable {σ α β : Type}

/-- C7: `Stats()` copies the engine snapshot field for field (Hits, Misses,
DelHits, DelMisses, Collisions), so every relation between the five counters
holds of the wrapper's result exactly when it holds of the engine snapshot. -/
theorem Stats_copies_engine_counters (c : cacheImpl σ) (s : σ) :
    (c.Stats s).Hits = (c.BigCache.Stats s).Hits ∧
    (c.Stats s).Misses = (c.BigCache.Stats s).Misses ∧
    (c.Stats s).DelHits = (c.BigCache.Stats s).DelHits ∧
    (c.Stats s).DelMisses = (c.BigCache.Stats s).DelMisses ∧
    (c.Stats s).Collisions = (c.BigCache.Stats s).Collisions ∧
    ∀ P : Int → Int → Int → Int → Int → Prop,
      P (c.Stats s).Hits (c.Stats s).Misses (c.Stats s).DelHits (c.Stats s).DelMisses
          (c.Stats s).Collisions ↔
        P (c.BigCache.Stats s).Hits (c.BigCache.Stats s).Misses (c.BigCache.Stats s).DelHits
          (c.BigCache.Stats s).DelMisses (c.BigCache.Stats s).Collisions :=
  ⟨rfl, rfl, rfl, rfl, rfl, fun _ => Iff.rfl⟩

/-- C8: the wrapper constants are Expired = 1, NoSpace = 2, Deleted = 3,
pairwise distinct and different from the zero value; `GetWithInfo` returns the
engine's bytes, error and state unchanged and a status with the engine
status's numeric value, so the engine's Expired, NoSpace, Deleted and unset
status come out as the wrapper's Expired, NoSpace, Deleted and 0. -/
theorem GetWithInfo_keeps_reason_code (c : cacheImpl σ) (key : String) (s : σ) :
    (Expired.val = 1 ∧ NoSpace.val = 2 ∧ Deleted.val = 3) ∧
    (Expired ≠ NoSpace ∧ Expired ≠ Deleted ∧ NoSpace ≠ Deleted) ∧
    (Expired ≠ ⟨0⟩ ∧ NoSpace ≠ ⟨0⟩ ∧ Deleted ≠ ⟨0⟩) ∧
    (c.GetWithInfo key s).1.1 = (c.BigCache.GetWithInfo key s).1.1 ∧
    (c.GetWithInfo key s).1.2.2 = (c.BigCache.GetWithInfo key s).1.2.2 ∧
    (c.GetWithInfo key s).2 = (c.BigCache.GetWithInfo key s).2 ∧
    (c.GetWithInfo key s).1.2.1.EntryStatus.val =
      (c.BigCache.GetWithInfo key s).1.2.1.EntryStatus.val ∧
    (c.GetWithInfo key s).1.2.1.EntryStatus =
      RemoveReason.ofEngine (c.BigCache.GetWithInfo key s).1.2.1.EntryStatus ∧
    RemoveReason.ofEngine bigcache.Expired = Expired ∧
    RemoveReason.ofEngine bigcache.NoSpace = NoSpace ∧
    RemoveReason.ofEngine bigcache.Deleted = Deleted ∧
    RemoveReason.ofEngine ⟨0⟩ = ⟨0⟩ := by
  refine ⟨⟨rfl, rfl, rfl⟩, ⟨by decide, by decide, by decide⟩,
    ⟨by decide, by decide, by decide⟩, rfl, rfl, rfl, rfl, rfl, rfl, rfl, rfl, rfl⟩

/-- C6: when `Get(k)` returns a non-nil error `e`, `GetJson(k, bean)` returns
that same `e`, whatever the decoder is (it is not run), and leaves `bean` as it
was; and `GetJson` returns nil exactly when `Get` succeeded and decoding the
returned bytes succeeded. -/
theorem GetJson_returns_lookup_error (c : cacheImpl σ)
    (unmarshal : Bytes → β → β × Option GoError) (key : String) (bean : β) (s s1 : σ)
    (b : Bytes) (e : GoError) (h : c.Get key s = ((b, some e), s1)) :
    (∀ decoder : Bytes → β → β × Option GoError,
      c.GetJson decoder key bean s = ((some e, bean), s1)) ∧
    ∀ (bean2 : β) (s2 : σ),
      (c.GetJson unmarshal key bean2 s2).1.1 = none ↔
        (c.Get key s2).1.2 = none ∧ (unmarshal (c.Get key s2).1.1 bean2).2 = none := by
  constructor
  · intro decoder
    simp only [cacheImpl.GetJson, h]
  · intro bean2 s2
    unfold cacheImpl.GetJson
    rcases hg : c.Get key s2 with ⟨⟨b2, err2⟩, s3⟩
    cases err2 with
    | none => simp
    | some e2 => simp

/-- C6 at a concrete input: on the empty table `Get("abc")` fails with
`ErrEntryNotFound`, and `GetJson("abc", &bean)` returns it with `bean` kept. -/
theorem GetJson_returns_lookup_error_witness :
    tableCache.Get "abc" [] = (([], some GoError.ErrEntryNotFound), []) ∧
    tableCache.GetJson decodeBool "abc" true [] =
      ((some GoError.ErrEntryNotFound, true), []) :=
  ⟨rfl, (GetJson_returns_lookup_error tableCache decodeBool "abc" true [] [] []
    GoError.ErrEntryNotFound rfl).1 decodeBool⟩

/-- C10: when JSON encoding of a value that is not a byte slice fails with `e`,
`SetJson(k, v)` returns the error with message
"set key:" ++ k ++ " cache error:" ++ e.Error() and the engine state is the one
before the call (`Set` is not called); when the encoding succeeds with `b` the
result is that of the one call `Set(k, b)`; for a byte slice `v` it is that of
the one call `Set(k, v)`. -/
theorem SetJson_one_Set_or_none (c : cacheImpl σ) (encode : α → Except GoError Bytes)
    (key : String) (s : σ) :
    (∀ (a : α) (e : GoError), encode a = .error e →
      c.SetJson encode key (.other a) s =
          (some (GoError.errorf ("set key:" ++ key ++ " cache error:" ++ e.Error)), s) ∧
        ∃ err, (c.SetJson encode key (.other a) s).1 = some err ∧
          err.Error = "set key:" ++ key ++ " cache error:" ++ e.Error) ∧
    (∀ (a : α) (b : Bytes), encode a = .ok b →
      c.SetJson encode key (.other a) s = c.Set key b s) ∧
    ∀ v : Bytes, c.SetJson encode key (.bytes v) s = c.Set key v s := by
  refine ⟨fun a e h => ?_, fun a b h => ?_, fun v => rfl⟩
  · have hs : c.SetJson encode key (.other a) s =
        (some (GoError.errorf ("set key:" ++ key ++ " cache error:" ++ e.Error)), s) := by
      simp only [cacheImpl.SetJson, json.Marshal, h]
    exact ⟨hs, GoError.errorf ("set key:" ++ key ++ " cache error:" ++ e.Error),
      by rw [hs], rfl⟩
  · simp only [cacheImpl.SetJson, json.Marshal, h]

/-- C10 at a concrete input: a channel cannot be encoded, `SetJson` returns
the formatted error and the table stays empty. -/
theorem SetJson_one_Set_or_none_witness :
    SampleValue.encode .chanInt = .error (GoError.json "json: unsupported type: chan int") ∧
    tableCache.SetJson SampleValue.encode "abc" (.other .chanInt) [] =
      (some (GoError.errorf
        ("set key:" ++ "abc" ++ " cache error:" ++ "json: unsupported type: chan int")), []) :=
  ⟨rfl, ((SetJson_one_Set_or_none tableCache SampleValue.encode "abc" []).1
    .chanInt (GoError.json "json: unsupported type: chan int") rfl).1⟩

/-- C2, the claim as stated fails for a byte slice: the JSON serialisation of
the one-byte slice `a` is the six bytes of the text "YQ==" in quotes, and
`SetJson("k", []byte("a"))` calls `Set` with the byte `a` itself, so the table
holds `a` and not its serialisation. -/
theorem SetJson_bytes_not_serialised :
    json.Marshal SampleValue.encode (.bytes [97]) = .ok [34, 89, 81, 61, 61, 34] ∧
    tableCache.SetJson SampleValue.encode "k" (.bytes [97]) [] = (none, [("k", [97])]) ∧
    tableCache.SetJson SampleValue.encode "k" (.bytes [97]) [] ≠
      tableCache.Set "k" [34, 89, 81, 61, 61, 34] [] := by
  refine ⟨rfl, rfl, by decide⟩

/-- C2 as amended: for a value that is not a byte slice and whose JSON encoding
succeeds with `b`, `SetJson(k, v)` is the call `Set(k, b)` with `b` the JSON
serialisation of `v`; a byte slice is handed to `Set` as it is; and on a cache
whose `Get(k)` returns `b`, `GetJson(k, &bean)` returns what decoding `b` into
`bean` returns and leaves `bean` as decoded: nil and the decoding of the
encoding of `v` when that decoding succeeds. -/
theorem SetJson_GetJson_round_trip (c : cacheImpl σ) (encode : α → Except GoError Bytes)
    (unmarshal : Bytes → β → β × Option GoError) (key : String) (a : α) (b : Bytes)
    (bean : β) (s s1 s2 : σ) (henc : json.Marshal encode (.other a) = .ok b)
    (hget : c.Get key s1 = ((b, none), s2)) :
    c.SetJson encode key (.other a) s = c.Set key b s ∧
    (∀ raw : Bytes, c.SetJson encode key (.bytes raw) s = c.Set key raw s) ∧
    c.GetJson unmarshal key bean s1 = (((unmarshal b bean).2, (unmarshal b bean).1), s2) ∧
    ((unmarshal b bean).2 = none →
      c.GetJson unmarshal key bean s1 = ((none, (unmarshal b bean).1), s2)) := by
  have hg : c.GetJson unmarshal key bean s1 =
      (((unmarshal b bean).2, (unmarshal b bean).1), s2) := by
    simp only [cacheImpl.GetJson, hget]
  refine ⟨?_, fun raw => rfl, hg, fun hd => ?_⟩
  · simp only [cacheImpl.SetJson, henc]
  · rw [hg, hd]

/-- C2 as amended, at a concrete input: `SetJson("k", true)` stores the text
`true`, and `GetJson("k", &bean)` on the resulting table returns nil and sets
a `false` destination to `true`. -/
theorem SetJson_GetJson_round_trip_witness :
    tableCache.SetJson SampleValue.encode "k" (.other (.bool true)) [] =
      (none, [("k", [116, 114, 117, 101])]) ∧
    tableCache.GetJson decodeBool "k" false [("k", [116, 114, 117, 101])] =
      ((none, true), [("k", [116, 114, 117, 101])]) :=
  have h := SetJson_GetJson_round_trip tableCache SampleValue.encode decodeBool "k"
    (.bool true) [116, 114, 117, 101] false [] [("k", [116, 114, 117, 101])]
    [("k", [116, 114, 117, 101])] rfl (by decide)
  ⟨h.1, h.2.2.2 (by decide)⟩

/-- The callback builders leave the reason filter of the config alone. -/
theorem fold_removeOptions_filter {η ℓ κ : Type} (opts : List (RemoveOption κ))
    (c0 : bigcache.Config η ℓ κ) :
    (List.foldl (fun config o => o config) c0
      (opts.map RemoveOption.option)).onRemoveFilter = c0.onRemoveFilter := by
  induction opts generalizing c0 with
  | nil => rfl
  | cons o rest ih =>
    simp only [List.map_cons, List.foldl_cons]
    rw [ih]
    cases o <;> rfl

/-- Scalar builders on other fields leave `LifeWindow` alone. -/
theorem fold_scalarOptions_lifeWindow {η ℓ κ : Type} (opts : List ScalarOption)
    (h : ∀ o ∈ opts, o.field ≠ ScalarField.LifeWindow) (c0 : bigcache.Config η ℓ κ) :
    (List.foldl (fun config o => o config) c0
      (opts.map ScalarOption.option)).LifeWindow = c0.LifeWindow := by
  induction opts generalizing c0 with
  | nil => rfl
  | cons o rest ih =>
    simp only [List.map_cons, List.foldl_cons]
    rw [ih (fun x hx => h x (List.mem_cons_of_mem _ hx))]
    have ho := h o (List.mem_cons_self _ _)
    cases o <;> first | rfl | exact absurd rfl ho

/-- C9: `New` hands the engine the options applied left to right to
`DefaultConfig(lifeWindow)`; each scalar builder writes its one field (the
given value, `true` for `WithStatsEnabled`) and keeps the others; two scalar
options on different fields commute; of two on the same field the later one
wins; and a `WithLifeWindow(t)` not followed by another one decides the life
window, whatever `lifeWindow` was. -/
theorem New_config_is_fold_of_options {σ η ℓ κ : Type} [Inhabited η] [Inhabited ℓ]
    (NewBigCache : bigcache.Config η ℓ κ → Except GoError (bigcache.BigCache σ × σ))
    (lifeWindow : Int) (opts : List (CacheOption η ℓ κ)) (c : bigcache.Config η ℓ κ)
    (a b : ScalarOption) (t : Int) (before after : List ScalarOption) :
    (New NewBigCache lifeWindow opts =
      match NewBigCache
        (opts.foldl (fun config o => o config) (bigcache.DefaultConfig lifeWindow)) with
      | .error err => .error err
      | .ok (cacheEntry, s) => .ok ({ BigCache := cacheEntry }, s)) ∧
    ((∀ n, WithShards n c = { c with Shards := n }) ∧
      (∀ d, WithLifeWindow d c = { c with LifeWindow := d }) ∧
      (∀ d, WithCleanWindow d c = { c with CleanWindow := d }) ∧
      (∀ n, WithMaxEntriesInWindow n c = { c with MaxEntriesInWindow := n }) ∧
      (∀ n, WithMaxEntrySize n c = { c with MaxEntrySize := n }) ∧
      (WithStatsEnabled c = { c with StatsEnabled := true }) ∧
      (∀ v, WithVerbose v c = { c with Verbose := v }) ∧
      (∀ n, WithHardMaxCacheSize n c = { c with HardMaxCacheSize := n })) ∧
    (a.field ≠ b.field → a.option (b.option c) = b.option (a.option c)) ∧
    (a.field = b.field → b.option (a.option c) = b.option c) ∧
    ((∀ o ∈ after, o.field ≠ ScalarField.LifeWindow) →
      (newConfig lifeWindow
        (before.map ScalarOption.option ++ [WithLifeWindow t] ++
          after.map ScalarOption.option) : bigcache.Config η ℓ κ).LifeWindow = t) := by
  refine ⟨rfl, ⟨fun _ => rfl, fun _ => rfl, fun _ => rfl, fun _ => rfl, fun _ => rfl, rfl,
    fun _ => rfl, fun _ => rfl⟩, ?_, ?_, ?_⟩
  · intro h
    cases a <;> cases b <;> first | rfl | exact absurd rfl h
  · intro h
    cases a <;> cases b <;> first | rfl | exact ScalarField.noConfusion h
  · intro h
    unfold newConfig
    rw [List.foldl_append, List.foldl_append, fold_scalarOptions_lifeWindow after h]
    rfl

/-- C9 at concrete inputs: `WithShards(4)` and `WithCleanWindow(5)` commute,
the second of `WithShards(4)`, `WithShards(8)` wins, and
`New(10s, WithLifeWindow(7), WithShards(2))` has a life window of 7. -/
theorem New_config_is_fold_of_options_witness :
    (WithShards 4 (WithCleanWindow 5 tenSeconds) = WithCleanWindow 5 (WithShards 4 tenSeconds)) ∧
    (WithShards 8 (WithShards 4 tenSeconds) = WithShards 8 tenSeconds) ∧
    (newConfig 10000000000 [WithLifeWindow 7, WithShards 2] :
      bigcache.Config Unit Unit (List String)).LifeWindow = 7 :=
  ⟨(New_config_is_fold_of_options
      (fun _ => (.error GoError.ErrEntryNotFound :
        Except GoError (bigcache.BigCache Unit × Unit)))
      0 [] tenSeconds (.WithShards 4) (.WithCleanWindow 5) 0 [] []).2.2.1 (by decide),
    (New_config_is_fold_of_options
      (fun _ => (.error GoError.ErrEntryNotFound :
        Except GoError (bigcache.BigCache Unit × Unit)))
      0 [] tenSeconds (.WithShards 4) (.WithShards 8) 0 [] []).2.2.2.1 rfl,
    (New_config_is_fold_of_options
      (fun _ => (.error GoError.ErrEntryNotFound :
        Except GoError (bigcache.BigCache Unit × Unit)))
      10000000000 [] tenSeconds (.WithShards 4) (.WithShards 8) 7 [] [.WithShards 2]).2.2.2.2
      (by decide)⟩

/-- The option `WithOnRemoveFilterSet` changes no field of any config, for any
list of reasons. -/
theorem WithOnRemoveFilterSet_is_identity {η ℓ κ : Type} (reasons : List RemoveReason)
    (c : bigcache.Config η ℓ κ) : WithOnRemoveFilterSet reasons c = c :=
  rfl

/-- C3, the code at a concrete input: `WithOnRemoveFilterSet(Deleted)` applied
to the default config leaves the filter at 0, so a removal for reason
`Expired` still passes and still reaches `OnRemoveWithReason` on a config built
with that option, while the engine's own `OnRemoveFilterSet(Deleted)` returns a
config with filter 8 that admits `Deleted` and rejects `Expired`. -/
theorem WithOnRemoveFilterSet_drops_result :
    WithOnRemoveFilterSet [Deleted] tenSeconds = tenSeconds ∧
    (WithOnRemoveFilterSet [Deleted] tenSeconds).onRemoveFilter = 0 ∧
    (WithOnRemoveFilterSet [Deleted] tenSeconds).passesFilter bigcache.Expired = true ∧
    (newConfig 10000000000
        [WithOnRemoveWithReason (some logReason), WithOnRemoveFilterSet [Deleted]] :
      bigcache.Config Unit Unit (List String)).onRemove "abc" [49] bigcache.Expired ⟨0⟩ [] =
      ["OnRemoveWithReason abc"] ∧
    (tenSeconds.OnRemoveFilterSet [Deleted.toEngine]).onRemoveFilter = 8 ∧
    (tenSeconds.OnRemoveFilterSet [Deleted.toEngine]).passesFilter bigcache.Deleted = true ∧
    (tenSeconds.OnRemoveFilterSet [Deleted.toEngine]).passesFilter bigcache.Expired = false := by
  refine ⟨rfl, rfl, rfl, by decide, rfl, by decide, by decide⟩

/-- C4, the claim as stated fails: with `WithOnRemove` and
`WithOnRemoveWithReason` both passed to `New` (in either order), a removal
runs the bare `OnRemove` callback and not `OnRemoveWithReason`. -/
theorem bare_callback_wins_over_reason :
    (newConfig 10000000000 [WithOnRemove (some logBare), WithOnRemoveWithReason (some logReason)] :
      bigcache.Config Unit Unit (List String)).onRemove "abc" [49] bigcache.Deleted ⟨0⟩ [] =
      ["OnRemove abc"] ∧
    (newConfig 10000000000 [WithOnRemoveWithReason (some logReason), WithOnRemove (some logBare)] :
      bigcache.Config Unit Unit (List String)).onRemove "abc" [49] bigcache.Deleted ⟨0⟩ [] =
      ["OnRemove abc"] ∧
    (["OnRemove abc"] : List String) ≠ ["OnRemoveWithReason abc"] := by
  refine ⟨by decide, by decide, by decide⟩

/-- C4 as amended: on the config `New` builds from any list of
`WithOnRemove`, `WithOnRemoveWithMetadata` and `WithOnRemoveWithReason`
options, a removal runs exactly one callback when one is configured, chosen by
the precedence metadata-aware callback over bare callback over reason-only
callback, and runs none when none is configured. -/
theorem removal_runs_one_callback {η ℓ κ : Type} [Inhabited η] [Inhabited ℓ]
    (lifeWindow : Int) (opts : List (RemoveOption κ)) (c : bigcache.Config η ℓ κ)
    (key : String) (entry : Bytes) (reason : bigcache.RemoveReason)
    (keyMetadata : bigcache.Metadata)
    (hc : c = newConfig lifeWindow (opts.map RemoveOption.option)) :
    (∀ fn, c.OnRemoveWithMetadata = some fn →
      c.onRemove key entry reason keyMetadata = fn key entry keyMetadata) ∧
    (c.OnRemoveWithMetadata = none → ∀ fn, c.OnRemove = some fn →
      c.onRemove key entry reason keyMetadata = fn key entry) ∧
    (c.OnRemoveWithMetadata = none → c.OnRemove = none →
      ∀ fn, c.OnRemoveWithReason = some fn →
        c.onRemove key entry reason keyMetadata = fn key entry reason) ∧
    (c.OnRemoveWithMetadata = none → c.OnRemove = none → c.OnRemoveWithReason = none →
      c.onRemove key entry reason keyMetadata = id) := by
  have hf : c.onRemoveFilter = 0 := by
    rw [hc]
    unfold newConfig
    rw [fold_removeOptions_filter]
    rfl
  have hp : c.passesFilter reason = true := by
    simp [bigcache.Config.passesFilter, hf]
  refine ⟨fun fn h => ?_, fun h1 fn h => ?_, fun h1 h2 fn h => ?_, fun h1 h2 h3 => ?_⟩
  · simp only [bigcache.Config.onRemove, h]
  · simp only [bigcache.Config.onRemove, h1, h]
  · simp only [bigcache.Config.onRemove, h1, h2, h, hp, if_true]
  · simp only [bigcache.Config.onRemove, h1, h2, h3]

/-- C4 as amended, at a concrete input: with all three callbacks passed to
`New` the metadata-aware one runs, and it alone. -/
theorem removal_runs_one_callback_witness :
    (newConfig 10000000000
        [WithOnRemove (some logBare), WithOnRemoveWithReason (some logReason),
          WithOnRemoveWithMetadata (some logMetadata)] :
      bigcache.Config Unit Unit (List String)).onRemove "abc" [49] bigcache.Deleted ⟨0⟩ [] =
      ["OnRemoveWithMetadata abc"] :=
  congrFun ((removal_runs_one_callback 10000000000
    [.WithOnRemove (some logBare), .WithOnRemoveWithReason (some logReason),
      .WithOnRemoveWithMetadata (some logMetadata)]
    (newConfig 10000000000
        [WithOnRemove (some logBare), WithOnRemoveWithReason (some logReason),
          WithOnRemoveWithMetadata (some logMetadata)] :
      bigcache.Config Unit Unit (List String))
    "abc" [49] bigcache.Deleted ⟨0⟩ rfl).1 logMetadata rfl) []

end cache
